import Mathlib

/-!
Verification of the sign-in / check-in automation script (`main.py`).

Python strings are modelled as lists of Unicode code points (`Str := List Char`),
matching the `len`, slicing and `in` (substring) semantics of Python at the
code-point level.  Python values that can appear in a parsed JSON document are
modelled by `PyVal`.  The remote HTTP transport is modelled by an oracle that
either yields a response text or raises an exception (carried as a string that
stands for the Python `repr(ex)` text).  Python exceptions are modelled with
`Except Str`: a `.error` escaping a function models an uncaught exception.
-/

namespace VpsCheckin

/-- A Python `str`, as its sequence of code points. -/
abbrev Str := List Char

/-- Shorthand to write `Str` literals. -/
def S (s : String) : Str := s.data

/-- Python whitespace characters stripped by `str.strip()` (ASCII part). -/
def isPySpace (c : Char) : Bool :=
  c = ' ' || c = '\t' || c = '\n' || c = '\r' || c = '\x0b' || c = '\x0c'

/-- Python `s.strip()`: drop whitespace from both ends. -/
def strip (s : Str) : Str :=
  ((s.dropWhile isPySpace).reverse.dropWhile isPySpace).reverse

/-- Python `s.lower()` (ASCII case folding; the only cased needle used is `"check"`). -/
def lower (s : Str) : Str := s.map Char.toLower

/-- Python substring test `sub in hay`. -/
def containsSub (hay sub : Str) : Bool :=
  match hay with
  | [] => sub.isEmpty
  | _ :: t => sub.isPrefixOf hay || containsSub t sub

/-- Values a parsed JSON document (and hence `json.loads`) can produce. -/
inductive PyVal where
  | pynone
  | pybool (b : Bool)
  | pyint (n : Int)
  | pyfloat (q : Rat)
  | pystr (s : Str)
  | pylist (elems : List PyVal)
  | pydict (entries : List (Str × PyVal))

/-- Numeric interpretation used by Python `==` across `bool`/`int`/`float`. -/
def numValue : PyVal → Option Rat
  | .pybool b => some (if b then 1 else 0)
  | .pyint n => some (n : Rat)
  | .pyfloat q => some q
  | _ => none

/-- Python `==` restricted to the comparisons performed by the script
(a value against the scalars `1`, `"1"`, `True`): numbers of any numeric
type compare by value, strings by content, everything else is unequal
to a scalar. -/
def pyEqScalar (v w : PyVal) : Bool :=
  match numValue v, numValue w with
  | some a, some b => a = b
  | _, _ =>
    match v, w with
    | .pystr s, .pystr t => s = t
    | .pynone, .pynone => true
    | _, _ => false

/-- Python `v in (1, "1", True)` — the success-sentinel test on `ret`. -/
def inSuccessTuple (v : PyVal) : Bool :=
  pyEqScalar v (.pyint 1) || pyEqScalar v (.pystr (S "1")) || pyEqScalar v (.pybool true)

/-- Python truthiness (`bool(v)`). -/
def pyTruthy : PyVal → Bool
  | .pynone => false
  | .pybool b => b
  | .pyint n => !(n == 0)
  | .pyfloat q => !(q == 0)
  | .pystr s => !s.isEmpty
  | .pylist l => !l.isEmpty
  | .pydict d => !d.isEmpty

/-- Python `v or w`. -/
def pyOr (v w : PyVal) : PyVal := if pyTruthy v then v else w

/-- Python `d.get(k)` on a parsed JSON object (`None` when absent; with
duplicate keys `json.loads` keeps the last occurrence, hence the reverse). -/
def pyGet (entries : List (Str × PyVal)) (k : Str) : PyVal :=
  match entries.reverse.find? (fun kv => kv.1 == k) with
  | some kv => kv.2
  | none => .pynone

/-- Python `v.strip()` as an attribute call on a dynamic value: succeeds on a
string, raises `AttributeError` on anything else. -/
def pyStripMethod : PyVal → Except Str Str
  | .pystr s => .ok (strip s)
  | _ => .error (S "AttributeError: object has no attribute strip")

/-- Model of `mask_email` (main.py:50-61).  `name[0]` raises `IndexError` when the part
before the first `@` is empty, so the function is fallible. -/
def mask_email (s0 : Str) : Except Str Str :=
  let s := strip s0
  if s.contains '@' then
    let name := s.takeWhile (· ≠ '@')
    let dom := (s.dropWhile (· ≠ '@')).drop 1
    if name.length ≤ 2 then
      match name with
      | [] => .error (S "IndexError: string index out of range")
      | c :: _ => .ok (c :: '*' :: '@' :: dom)
    else
      .ok (name.take 1 ++ List.replicate (name.length - 2) '*' ++
           [name.getLastD ' '] ++ '@' :: dom)
  else
    if s.length ≤ 2 then .ok (s.take 1 ++ ['*'])
    else .ok (s.take 1 ++ List.replicate (s.length - 2) '*' ++ [s.getLastD ' '])

/-- Keyword list of `is_already_checked_in` (main.py:80). -/
def alreadyKeywords : List Str :=
  [S "已经", S "已", S "签到过", S "今日", S "今天", S "似乎已经", S "重复", S "领取过"]

/-- Model of `is_already_checked_in` (main.py:71-81). -/
def is_already_checked_in (msg : Str) : Bool :=
  let m := strip msg
  if m.isEmpty then false
  else (containsSub m (S "签到") || containsSub (lower m) (S "check"))
       && alreadyKeywords.any (fun k => containsSub m k)

/-! ### JSON parsing (model of `json.loads` as used by `parse_json_maybe`) -/

/-- Whitespace skipped between JSON tokens. -/
def isJsonWs (c : Char) : Bool := c = ' ' || c = '\t' || c = '\n' || c = '\r'

/-- Skip inter-token whitespace. -/
def skipWs (cs : Str) : Str := cs.dropWhile isJsonWs

/-- Hexadecimal digit value, for `\uXXXX` escapes. -/
def hexVal (c : Char) : Option Nat :=
  if '0' ≤ c ∧ c ≤ '9' then some (c.toNat - 48)
  else if 'a' ≤ c ∧ c ≤ 'f' then some (c.toNat - 87)
  else if 'A' ≤ c ∧ c ≤ 'F' then some (c.toNat - 55)
  else none

/-- Prepend a character to the string part of a partial parse. -/
def consParsed (c : Char) : Option (Str × Str) → Option (Str × Str)
  | some (s, rest) => some (c :: s, rest)
  | none => none

/-- Parse the body of a JSON string after the opening quote, up to the closing
quote.  Supports the standard escapes and `\uXXXX` (surrogate pairs are not
combined); unescaped control characters are rejected as `json.loads` does. -/
def parseStringBody : Nat → Str → Option (Str × Str)
  | 0, _ => none
  | fuel + 1, cs =>
    match cs with
    | [] => none
    | '"' :: rest => some ([], rest)
    | '\\' :: esc =>
      match esc with
      | '"' :: r => consParsed '"' (parseStringBody fuel r)
      | '\\' :: r => consParsed '\\' (parseStringBody fuel r)
      | '/' :: r => consParsed '/' (parseStringBody fuel r)
      | 'b' :: r => consParsed '\x08' (parseStringBody fuel r)
      | 'f' :: r => consParsed '\x0c' (parseStringBody fuel r)
      | 'n' :: r => consParsed '\n' (parseStringBody fuel r)
      | 'r' :: r => consParsed '\r' (parseStringBody fuel r)
      | 't' :: r => consParsed '\t' (parseStringBody fuel r)
      | 'u' :: h1 :: h2 :: h3 :: h4 :: r =>
        match hexVal h1, hexVal h2, hexVal h3, hexVal h4 with
        | some a, some b, some c, some d =>
          consParsed (Char.ofNat (((a * 16 + b) * 16 + c) * 16 + d)) (parseStringBody fuel r)
        | _, _, _, _ => none
      | _ => none
    | c :: rest => if c.toNat < 32 then none else consParsed c (parseStringBody fuel rest)

/-- Leading decimal digits of a string, and the remainder. -/
def takeDigits (cs : Str) : Str × Str := (cs.takeWhile Char.isDigit, cs.dropWhile Char.isDigit)

/-- Numeric value of a digit string. -/
def digitsToNat (ds : Str) : Nat := ds.foldl (fun a c => a * 10 + (c.toNat - 48)) 0

/-- Parse a JSON number.  An integer literal yields a Python `int`; a literal
with a fraction or exponent yields a Python `float`, modelled as the exact
rational it denotes (binary64 rounding is not modelled; the script only
compares against `1`, which floats represent exactly). -/
def parseNumber (cs : Str) : Option (PyVal × Str) :=
  let (neg, cs1) := match cs with | '-' :: r => (true, r) | _ => (false, cs)
  let (ip, cs2) := takeDigits cs1
  if ip.isEmpty then none else
  let (hasFrac, fp, cs3) :=
    match cs2 with
    | '.' :: r => let (d, r') := takeDigits r; (true, d, r')
    | _ => (false, [], cs2)
  if hasFrac && fp.isEmpty then none else
  let (hasExp, expOk, expNeg, ed, cs4) :=
    match cs3 with
    | 'e' :: r | 'E' :: r =>
      match r with
      | '+' :: r2 => let (d, r') := takeDigits r2; (true, !d.isEmpty, false, d, r')
      | '-' :: r2 => let (d, r') := takeDigits r2; (true, !d.isEmpty, true, d, r')
      | _ => let (d, r') := takeDigits r; (true, !d.isEmpty, false, d, r')
    | _ => (false, true, false, [], cs3)
  if hasExp && !expOk then none else
  let sgn : Int := if neg then -1 else 1
  if !hasFrac && !hasExp then some (.pyint (sgn * (digitsToNat ip : Int)), cs2)
  else
    let mant : Nat := digitsToNat (ip ++ fp)
    let e : Nat := digitsToNat ed
    let q : Rat :=
      if expNeg then mkRat (sgn * (mant : Int)) (10 ^ (fp.length + e))
      else mkRat (sgn * ((mant * 10 ^ e : Nat) : Int)) (10 ^ fp.length)
    some (.pyfloat q, cs4)

mutual

/-- Parse one JSON value (fuel-bounded recursion). -/
def parseVal : Nat → Str → Option (PyVal × Str)
  | 0, _ => none
  | fuel + 1, cs =>
    match skipWs cs with
    | [] => none
    | '"' :: r =>
      match parseStringBody (r.length + 1) r with
      | some (s, rest) => some (.pystr s, rest)
      | none => none
    | '\x7b' :: r =>
      match skipWs r with
      | '\x7d' :: r2 => some (.pydict [], r2)
      | _ =>
        match parseMembers fuel r with
        | some (kvs, rest) => some (.pydict kvs, rest)
        | none => none
    | '[' :: r =>
      match skipWs r with
      | ']' :: r2 => some (.pylist [], r2)
      | _ =>
        match parseElems fuel r with
        | some (vs, rest) => some (.pylist vs, rest)
        | none => none
    | 't' :: 'r' :: 'u' :: 'e' :: r => some (.pybool true, r)
    | 'f' :: 'a' :: 'l' :: 's' :: 'e' :: r => some (.pybool false, r)
    | 'n' :: 'u' :: 'l' :: 'l' :: r => some (.pynone, r)
    | cs' => parseNumber cs'

/-- Parse the members of a JSON object after `\x7b`, including the closing `\x7d`. -/
def parseMembers : Nat → Str → Option (List (Str × PyVal) × Str)
  | 0, _ => none
  | fuel + 1, cs =>
    match skipWs cs with
    | '"' :: r =>
      match parseStringBody (r.length + 1) r with
      | some (k, r2) =>
        match skipWs r2 with
        | ':' :: r3 =>
          match parseVal fuel r3 with
          | some (v, r4) =>
            match skipWs r4 with
            | ',' :: r5 =>
              match parseMembers fuel r5 with
              | some (kvs, r6) => some ((k, v) :: kvs, r6)
              | none => none
            | '\x7d' :: r5 => some ([(k, v)], r5)
            | _ => none
          | none => none
        | _ => none
      | none => none
    | _ => none

/-- Parse the elements of a JSON array after `[`, including the closing `]`. -/
def parseElems : Nat → Str → Option (List PyVal × Str)
  | 0, _ => none
  | fuel + 1, cs =>
    match parseVal fuel cs with
    | some (v, r) =>
      match skipWs r with
      | ',' :: r2 =>
        match parseElems fuel r2 with
        | some (vs, r3) => some (v :: vs, r3)
        | none => none
      | ']' :: r2 => some ([v], r2)
      | _ => none
    | none => none

end

/-- Model of `parse_json_maybe` (main.py:64-68): `json.loads` that returns `None`
instead of raising — a full parse of the text (trailing whitespace allowed,
trailing garbage rejected), or `none`. -/
def parse_json_maybe (s : Str) : Option PyVal :=
  match parseVal (s.length + 1) s with
  | some (v, rest) => if (skipWs rest).isEmpty then some v else none
  | none => none

/-! ### Account sign-in executor (`sign_one`, main.py:190-247) -/

/-- Model of `CheckinResult` (main.py:190-197).  `reason` is a `PyVal` because the
Python dataclass does not enforce its `str` annotation: the login-failure path
can store any truthy JSON `msg` value unchanged. -/
structure CheckinResult where
  email_masked : Str
  login_ok : Bool
  checkin_ok : Bool
  checkin_executed : Bool
  already_checked : Bool
  reason : PyVal

/-- Result of one `requests` call: a response (its `.text`) or a raised
exception, carried as a string standing for `repr(ex)`. -/
inductive ReqResult where
  | resp (text : Str)
  | exn (descr : Str)

/-- Behaviour of the remote transport during one `sign_one` call: what the
login POST and the check-in POST each do. -/
structure Transport where
  loginResp : ReqResult
  checkinResp : ReqResult

/-- The constant strings used by `sign_one`. -/
def retKey : Str := S "ret"

/-- The `msg` field key. -/
def msgKey : Str := S "msg"

/-- Detail of the `if not URL` early return (main.py:204). -/
def urlUnsetMsg : Str := S "URL 未配置（Secrets 里设置 URL）"

/-- Classification of the parsed check-in response (main.py:229-244):
`j2` is `parse_json_maybe(res2.text.strip())`, `txt2` is `res2.text`; the
`.strip()` attribute call on a non-string `msg` value raises. -/
def checkin_classify (j2 : Option PyVal) (txt2 masked : Str) : Except Str CheckinResult :=
  match j2 with
  | some (.pydict d2) =>
    if inSuccessTuple (pyGet d2 retKey) then
      match pyStripMethod (pyOr (pyGet d2 msgKey) (.pystr [])) with
      | .error e => .error e
      | .ok msg_ok => .ok ⟨masked, true, true, true, false, .pystr msg_ok⟩
    else
      match pyStripMethod (pyOr (pyGet d2 msgKey) (.pystr [])) with
      | .error e => .error e
      | .ok msg2 =>
        if is_already_checked_in msg2 then
          .ok ⟨masked, true, true, true, true, .pystr msg2⟩
        else
          .ok ⟨masked, true, false, true, false, .pystr msg2⟩
  | _ => .ok ⟨masked, true, false, true, false, .pystr ((strip txt2).take 300)⟩

/-- The check-in request and its handling (main.py:226-244). -/
def checkin_phase (res2 : ReqResult) (masked : Str) : Except Str CheckinResult :=
  match res2 with
  | .exn e => .error e
  | .resp txt2 => checkin_classify (parse_json_maybe (strip txt2)) txt2 masked

/-- Handling of the parsed login response (main.py:221-244): on the success
sentinel, proceed to the check-in request. -/
def login_classify (j : Option PyVal) (txt : Str) (res2 : ReqResult) (masked : Str) :
    Except Str CheckinResult :=
  match j with
  | some (.pydict d) =>
    if inSuccessTuple (pyGet d retKey) then checkin_phase res2 masked
    else .ok ⟨masked, false, false, false, false,
              pyOr (pyGet d msgKey) (.pystr ((strip txt).take 300))⟩
  | _ => .ok ⟨masked, false, false, false, false,
              pyOr .pynone (.pystr ((strip txt).take 300))⟩

/-- Body of the `try` block of `sign_one` (main.py:216-244): `.error` is a
Python exception reaching the `except` handler.  `t.checkinResp` is what the
check-in POST would do if issued; it is only consulted after a successful
login. -/
def sign_one_try (t : Transport) (masked : Str) : Except Str CheckinResult :=
  match t.loginResp with
  | .exn e => .error e
  | .resp txt => login_classify (parse_json_maybe (strip txt)) txt t.checkinResp masked

/-- Model of `sign_one` (main.py:200-247).  `mask_email` runs before the `try` block,
so its `IndexError` escapes the function — hence the `Except` result type:
`.error` models an exception raised past the boundary of `sign_one`. -/
def sign_one (url email _password : Str) (t : Transport) : Except Str CheckinResult :=
  match mask_email email with
  | .error e => .error e
  | .ok masked =>
    if url.isEmpty then
      .ok ⟨masked, false, false, false, false, .pystr urlUnsetMsg⟩
    else
      match sign_one_try t masked with
      | .ok r => .ok r
      | .error e => .ok ⟨masked, false, false, false, false, .pystr e⟩

/-! ### Notification delivery (`tg_send_html`, `tg_send_html_chunked`,
main.py:130-184) -/

/-- Python `full_html.split("\n\n")`: split on every non-overlapping
occurrence of the two-newline separator, leftmost first. -/
def splitNN : Str → Str → List Str
  | [], acc => [acc]
  | '\n' :: '\n' :: rest, acc => acc :: splitNN rest []
  | c :: rest, acc => splitNN rest (acc ++ [c])

/-- Slices `p[i:i+k]` for `i in range(0, len(p), k)` (the hard split,
main.py:178-179).  Fuel-bounded; `k > 0` in the only use (`k = 3800`). -/
def hardSplit : Nat → Nat → Str → List Str
  | 0, _, _ => []
  | _ + 1, _, [] => []
  | fuel + 1, k, cs => cs.take k :: hardSplit fuel k (cs.drop k)

/-- The Telegram message-size cap used by the script (main.py:162). -/
def maxChunkLen : Nat := 3800

/-- The `candidate` string of one loop step (main.py:170):
`buf + "\n\n" + p if buf else p`. -/
def chunkCandidate (buf p : Str) : Str :=
  if buf.isEmpty then p else buf ++ '\n' :: '\n' :: p

/-- The `for p in parts` accumulation loop of `tg_send_html_chunked`
(main.py:168-184), returning the chunks passed to `tg_send_html`, in order. -/
def chunkLoop (maxLen : Nat) : List Str → Str → List Str
  | [], buf => if buf.isEmpty then [] else [buf]
  | p :: rest, buf =>
    if (chunkCandidate buf p).length ≤ maxLen then chunkLoop maxLen rest (chunkCandidate buf p)
    else
      (if buf.isEmpty then [] else [buf]) ++
      (if maxLen < p.length then hardSplit p.length maxLen p ++ chunkLoop maxLen rest []
       else chunkLoop maxLen rest p)

/-- Model of `tg_send_html_chunked` (main.py:158-184) as the ordered list of strings it
passes to `tg_send_html` (the send itself returns `None` and never raises, so
the chunk sequence fully determines the delivery behaviour). -/
def chunk_plan (full : Str) : List Str :=
  if full.length ≤ maxChunkLen then [full]
  else chunkLoop maxChunkLen (splitNN full []) []

/-- Telegram delivery configuration (module env, main.py:18-26). -/
structure TgEnv where
  token : Str
  chatId : Str
  debug : Bool

/-- Outcome of one attempted `requests.post` to the Telegram API: an HTTP response
(status and body) or a raised exception (its `repr` as a string). -/
inductive Attempt where
  | http (status : Nat) (body : Str)
  | raised (e : Str)

/-- Did the attempt return HTTP 200? -/
def attemptOk : Attempt → Bool
  | .http 200 _ => true
  | _ => false

/-- The `last_err` recorded for a failed attempt (main.py:149, 151). -/
def attemptErr : Attempt → Str
  | .http st body => Nat.toDigits 10 st ++ ' ' :: body.take 200
  | .raised e => e

/-- Observable behaviour of one `tg_send_html` call: attempts made, `sleep(1)`
calls made, whether a 200 stopped the loop, and what was printed on failure. -/
structure SendTrace where
  attempts : Nat
  sleeps : Nat
  delivered : Bool
  logged : Option Str

/-- The `for _ in range(3)` retry loop (main.py:144-152).  `oracle n` is the
outcome of attempt `n` (0-based); a raised exception is caught by the inner
`except` and recorded, so nothing propagates. -/
def tgRetryLoop (oracle : Nat → Attempt) :
    Nat → Nat → Nat → Option Str → Nat × Nat × Bool × Option Str
  | 0, made, sleeps, last => (made, sleeps, false, last)
  | remaining + 1, made, sleeps, last =>
    if attemptOk (oracle made) then (made + 1, sleeps, true, last)
    else tgRetryLoop oracle remaining (made + 1) (sleeps + 1) (some (attemptErr (oracle made)))

/-- Model of `tg_send_html` (main.py:130-155): silent no-op when token or chat id is
unconfigured; otherwise up to 3 attempts with a 1-unit sleep after each
failure; after exhaustion the last error is printed only in debug mode. -/
def tg_send_html (env : TgEnv) (oracle : Nat → Attempt) : SendTrace :=
  if env.token.isEmpty || env.chatId.isEmpty then ⟨0, 0, false, none⟩
  else
    match tgRetryLoop oracle 3 0 0 none with
    | (att, slp, true, _) => ⟨att, slp, true, none⟩
    | (att, slp, false, last) => ⟨att, slp, false, if env.debug then last else none⟩

/-- Delivery behaviour of `tg_send_html_chunked`: one `tg_send_html` call per
planned chunk, in order (`oracles i` is the attempt oracle for chunk `i`);
`tg_send_html` always returns, so every chunk is attempted. -/
def tg_send_html_chunked (env : TgEnv) (oracles : Nat → Nat → Attempt) (full : Str) :
    List SendTrace :=
  (List.range (chunk_plan full).length).map (fun i => tg_send_html env (oracles i))

/-! ### Batch runner and run verdict (`main`, main.py:305-337) -/

/-- Python slicing `v[:120]` on a dynamic value: strings and lists slice,
a dict rejects the slice key, anything else is not subscriptable. -/
def pySlice120 : PyVal → Except Str PyVal
  | .pystr s => .ok (.pystr (s.take 120))
  | .pylist l => .ok (.pylist (l.take 120))
  | .pydict _ => .error (S "TypeError: unhashable type: slice")
  | _ => .error (S "TypeError: object is not subscriptable")

/-- The only fallible part of the per-account log line (main.py:314-317):
`r.reason[:120] if r.reason else ''`.  A truthy non-sliceable `reason` (for
example the integer 5 stored by a login failure whose JSON `msg` is `5`)
raises `TypeError` out of the loop; the rest of the f-string is total. -/
def log_reason_slice (v : PyVal) : Except Str PyVal :=
  if pyTruthy v then pySlice120 v else .ok (.pystr [])

/-- Does the per-account log line of this executor call print without
raising?  (`.error` outcomes never reach the print.) -/
def outcome_printable : Except Str CheckinResult → Bool
  | .ok r =>
    match log_reason_slice r.reason with
    | .ok _ => true
    | .error _ => false
  | .error _ => true

/-- The account loop of `main` (main.py:309-317): `sign_one` per account in
order, each result appended and then logged with the per-account print; a
raised exception — from `sign_one` itself or from the reason slice of the
log line — aborts the whole loop before the aggregation runs, as an uncaught
Python exception would, so the outcome list is only produced when every
iteration completes. -/
def run_batch (url : Str) (env : Nat → Transport) :
    Nat → List (Str × Str) → Except Str (List CheckinResult)
  | _, [] => .ok []
  | i, (email, pwd) :: rest =>
    match sign_one url email pwd (env i) with
    | .error e => .error e
    | .ok r =>
      match log_reason_slice r.reason with
      | .error e => .error e
      | .ok _ =>
        match run_batch url env (i + 1) rest with
        | .error e => .error e
        | .ok rs => .ok (r :: rs)

/-- The hard-failure predicate of main.py:320. -/
def hard_fail_pred (x : CheckinResult) : Bool :=
  !x.login_ok || (x.login_ok && x.checkin_executed && !x.checkin_ok)

/-- Model of the `hard_fail` list comprehension (main.py:320). -/
def hard_fail (results : List CheckinResult) : List CheckinResult :=
  results.filter hard_fail_pred

/-- The RunVerdict hard-failure predicate, written from the words of the spec:
`login_succeeded == false` OR (`checkin_attempted == true` AND
`checkin_succeeded == false`). -/
def spec_hard_failure_pred (x : CheckinResult) : Bool :=
  !x.login_ok || (x.checkin_executed && !x.checkin_ok)

/-- Exit status of `main` after the results are collected (main.py:319-337):
`raise SystemExit(1)` when `hard_fail` is non-empty, plain return (exit 0)
otherwise. -/
def main_exit_code (results : List CheckinResult) : Nat :=
  if (hard_fail results).isEmpty then 0 else 1

/-! ### Helper lemmas about the executor -/

lemma strip_as_rdropWhile (s : Str) :
    strip s = List.rdropWhile isPySpace (List.dropWhile isPySpace s) := rfl

lemma strip_idem (s : Str) : strip (strip s) = strip s := by
  rw [strip_as_rdropWhile, strip_as_rdropWhile]
  have h1 : List.dropWhile isPySpace (List.rdropWhile isPySpace (List.dropWhile isPySpace s)) =
      List.rdropWhile isPySpace (List.dropWhile isPySpace s) := by
    rw [List.dropWhile_eq_self_iff]
    intro hl
    have hpre : List.rdropWhile isPySpace (List.dropWhile isPySpace s) <+:
        List.dropWhile isPySpace s := List.rdropWhile_prefix _ _
    have hlen : 0 < (List.dropWhile isPySpace s).length :=
      Nat.lt_of_lt_of_le hl ( List.IsPrefix.length_le hpre)
    have hget := List.IsPrefix.getElem hpre (by simpa using hl)
    simpa [List.get_eq_getElem, hget] using List.dropWhile_get_zero_not isPySpace s hlen
  rw [h1, List.rdropWhile_idempotent]

lemma is_already_checked_in_strip (msg : Str) :
    is_already_checked_in (strip msg) = is_already_checked_in msg := by
  unfold is_already_checked_in
  rw [strip_idem]

/-- Record invariants for every normal result of the check-in classification. -/
lemma checkin_classify_ok_inv {j2 : Option PyVal} {txt2 masked : Str} {r : CheckinResult}
    (h : checkin_classify j2 txt2 masked = .ok r) :
    (r.checkin_executed = false → r.checkin_ok = false) ∧
    (r.already_checked = true → r.login_ok = true ∧ r.checkin_ok = true) := by
  unfold checkin_classify at h
  repeat' split at h
  all_goals first
    | exact Except.noConfusion h
    | (injection h with h; subst h;
       constructor <;> intro hh <;>
       first | rfl | exact Bool.noConfusion hh | exact ⟨rfl, rfl⟩)

/-- Record invariants for every normal result of the check-in phase. -/
lemma checkin_phase_ok_inv {res2 : ReqResult} {masked : Str} {r : CheckinResult}
    (h : checkin_phase res2 masked = .ok r) :
    (r.checkin_executed = false → r.checkin_ok = false) ∧
    (r.already_checked = true → r.login_ok = true ∧ r.checkin_ok = true) := by
  cases res2 with
  | exn e => exact Except.noConfusion h
  | resp txt2 => exact checkin_classify_ok_inv h

/-- Record invariants for every normal result of the `try` body. -/
lemma sign_one_try_ok_inv {t : Transport} {masked : Str} {r : CheckinResult}
    (h : sign_one_try t masked = .ok r) :
    (r.checkin_executed = false → r.checkin_ok = false) ∧
    (r.already_checked = true → r.login_ok = true ∧ r.checkin_ok = true) := by
  obtain ⟨lr, cr⟩ := t
  cases lr with
  | exn e => exact Except.noConfusion h
  | resp txt =>
    have h' : login_classify (parse_json_maybe (strip txt)) txt cr masked = .ok r := h
    unfold login_classify at h'
    split at h'
    · split at h'
      · exact checkin_phase_ok_inv h'
      · injection h' with h'
        subst h'
        exact ⟨fun _ => rfl, fun hh => Bool.noConfusion hh⟩
    · injection h' with h'
      subst h'
      exact ⟨fun _ => rfl, fun hh => Bool.noConfusion hh⟩

/-- Reduction of `sign_one` once the identifier masks successfully. -/
lemma sign_one_eq_of_mask {url email pwd masked : Str} {t : Transport}
    (hm : mask_email email = .ok masked) :
    sign_one url email pwd t =
      if url.isEmpty then .ok ⟨masked, false, false, false, false, .pystr urlUnsetMsg⟩
      else
        match sign_one_try t masked with
        | .ok r => .ok r
        | .error e => .ok ⟨masked, false, false, false, false, .pystr e⟩ := by
  unfold sign_one
  rw [hm]

/-- Reduction of `sign_one` when the identifier masking raises. -/
lemma sign_one_eq_of_mask_err {url email pwd e : Str} {t : Transport}
    (hm : mask_email email = .error e) :
    sign_one url email pwd t = .error e := by
  unfold sign_one
  rw [hm]

/-- Every outcome that `sign_one` returns normally satisfies the record
invariants: no successful check-in without an attempt, and a redundant
mark only together with a successful login and check-in. -/
lemma sign_one_ok_inv {url email pwd : Str} {t : Transport} {r : CheckinResult}
    (h : sign_one url email pwd t = .ok r) :
    (r.checkin_executed = false → r.checkin_ok = false) ∧
    (r.already_checked = true → r.login_ok = true ∧ r.checkin_ok = true) := by
  rcases hm : mask_email email with e | masked
  · rw [sign_one_eq_of_mask_err hm] at h
    exact Except.noConfusion h
  · rw [sign_one_eq_of_mask hm] at h
    by_cases hu : url.isEmpty = true
    · rw [if_pos hu] at h
      injection h with h
      subst h
      exact ⟨fun _ => rfl, fun hh => Bool.noConfusion hh⟩
    · rw [if_neg hu] at h
      rcases htry : sign_one_try t masked with e | r' <;> rw [htry] at h
      · injection h with h
        subst h
        exact ⟨fun _ => rfl, fun hh => Bool.noConfusion hh⟩
      · injection h with h
        subst h
        exact sign_one_try_ok_inv htry

/-- With a maskable identifier, `sign_one` always returns an outcome. -/
lemma sign_one_total {url email pwd masked : Str} (t : Transport)
    (hm : mask_email email = .ok masked) :
    ∃ r, sign_one url email pwd t = .ok r := by
  rw [@sign_one_eq_of_mask url email pwd masked t hm]
  by_cases hu : url.isEmpty = true
  · rw [if_pos hu]
    exact ⟨_, rfl⟩
  · rw [if_neg hu]
    rcases htry : sign_one_try t masked with e | r
    · exact ⟨⟨masked, false, false, false, false, .pystr e⟩, rfl⟩
    · exact ⟨r, rfl⟩

/-- Reduction of the `try` body when login succeeded and the check-in request
raises. -/
lemma sign_one_try_checkin_exn {txt e masked : Str} {d : List (Str × PyVal)}
    (hp : parse_json_maybe (strip txt) = some (.pydict d))
    (hr : inSuccessTuple (pyGet d retKey) = true) :
    sign_one_try ⟨.resp txt, .exn e⟩ masked = .error e := by
  show login_classify (parse_json_maybe (strip txt)) txt (.exn e) masked = .error e
  rw [hp]
  simp only [login_classify]
  rw [hr, if_pos rfl]
  rfl

/-! ### Claim theorems: the executor cluster (C2, C3, C4, C9, C10) -/

/-- C4: every `SignInOutcome` produced by `sign_in` satisfies both invariants:
`checkin_attempted = false` implies `checkin_succeeded = false`, and
`was_redundant = true` implies `checkin_succeeded = true`. -/
theorem checkin_outcome_invariants (url email pwd : Str) (t : Transport) (r : CheckinResult)
    (h : sign_one url email pwd t = .ok r) :
    (r.checkin_executed = false → r.checkin_ok = false) ∧
    (r.already_checked = true → r.checkin_ok = true) :=
  ⟨(sign_one_ok_inv h).1, fun ha => ((sign_one_ok_inv h).2 ha).2⟩

/-- Witness for C4 at a concrete redundant-success run. -/
theorem checkin_outcome_invariants_witness :
    ((⟨S "a*@x.com", true, true, true, true,
        .pystr (S "您似乎已经签到过了")⟩ : CheckinResult).checkin_executed = false →
      (⟨S "a*@x.com", true, true, true, true,
        .pystr (S "您似乎已经签到过了")⟩ : CheckinResult).checkin_ok = false) ∧
    ((⟨S "a*@x.com", true, true, true, true,
        .pystr (S "您似乎已经签到过了")⟩ : CheckinResult).already_checked = true →
      (⟨S "a*@x.com", true, true, true, true,
        .pystr (S "您似乎已经签到过了")⟩ : CheckinResult).checkin_ok = true) :=
  checkin_outcome_invariants (S "https://x") (S "ab@x.com") (S "p")
    ⟨.resp (S "\x7b\"ret\":1\x7d"), .resp (S "\x7b\"ret\":0,\"msg\":\"您似乎已经签到过了\"\x7d")⟩
    ⟨S "a*@x.com", true, true, true, true, .pystr (S "您似乎已经签到过了")⟩ rfl

/-- C2: over any list of outcomes produced by the executor, the hard-failure
list computed by `main` is exactly the outcomes matching the RunVerdict
predicate of the spec, redundant successes are never counted, and the process
exit code is 0 iff the hard-failure list is empty, non-zero iff non-empty. -/
theorem run_verdict_and_exit (results : List CheckinResult)
    (hprov : ∀ r ∈ results, ∃ url email pwd t, sign_one url email pwd t = .ok r) :
    hard_fail results = results.filter spec_hard_failure_pred ∧
    (∀ r ∈ results, r.already_checked = true → hard_fail_pred r = false) ∧
    (main_exit_code results = 0 ↔ hard_fail results = []) ∧
    (main_exit_code results ≠ 0 ↔ hard_fail results ≠ []) := by
  refine ⟨?_, ?_, ?_, ?_⟩
  · unfold hard_fail
    apply List.filter_congr
    intro x _
    unfold hard_fail_pred spec_hard_failure_pred
    cases hx : x.login_ok <;> simp
  · intro r hr ha
    obtain ⟨url, email, pwd, t, hs⟩ := hprov r hr
    obtain ⟨hl, hc⟩ := (sign_one_ok_inv hs).2 ha
    unfold hard_fail_pred
    rw [hl, hc]
    simp
  · rcases hf : hard_fail results with _ | ⟨a, l⟩ <;> simp [main_exit_code, hf]
  · rcases hf : hard_fail results with _ | ⟨a, l⟩ <;> simp [main_exit_code, hf]

/-- Witness for C2 on a one-outcome run produced by a concrete redundant
check-in. -/
theorem run_verdict_and_exit_witness :
    main_exit_code [⟨S "a*@x.com", true, true, true, true,
      .pystr (S "您似乎已经签到过了")⟩] = 0 ↔
    hard_fail [⟨S "a*@x.com", true, true, true, true,
      .pystr (S "您似乎已经签到过了")⟩] = [] :=
  (run_verdict_and_exit [⟨S "a*@x.com", true, true, true, true,
      .pystr (S "您似乎已经签到过了")⟩]
    (fun r hr => ⟨S "https://x", S "ab@x.com", S "p",
      ⟨.resp (S "\x7b\"ret\":1\x7d"),
       .resp (S "\x7b\"ret\":0,\"msg\":\"您似乎已经签到过了\"\x7d")⟩, by
        rw [List.mem_singleton] at hr
        rw [hr]
        exact rfl⟩)).2.2.1

/-- C3 counterexample: an account identifier whose local part before `@` is
empty makes `mask_email` raise `IndexError` before the `try` block, and the
exception escapes `sign_one` — so `sign_in` does not always return an outcome. -/
theorem sign_in_raises_on_unmaskable_email :
    sign_one (S "https://x") (S "@example.com") (S "p")
      ⟨.resp (S "\x7b\"ret\":1\x7d"), .resp (S "\x7b\"ret\":1\x7d")⟩ =
      .error (S "IndexError: string index out of range") := rfl

/-- C3 (amended): for every account whose identifier masks without error,
`sign_one` always returns an outcome, and any transport exception at the login
or the check-in request is caught and converted into a failure-shaped outcome
(`login_ok = false`, `checkin_executed = false`) whose detail is the
description of the exception. -/
theorem sign_in_exception_conversion (url email pwd masked : Str) (t : Transport)
    (hm : mask_email email = .ok masked) :
    (∃ r, sign_one url email pwd t = .ok r) ∧
    (∀ e c, url.isEmpty = false →
      sign_one url email pwd ⟨.exn e, c⟩ =
        .ok ⟨masked, false, false, false, false, .pystr e⟩) ∧
    (∀ e txt d, url.isEmpty = false →
      parse_json_maybe (strip txt) = some (.pydict d) →
      inSuccessTuple (pyGet d retKey) = true →
      sign_one url email pwd ⟨.resp txt, .exn e⟩ =
        .ok ⟨masked, false, false, false, false, .pystr e⟩) := by
  refine ⟨sign_one_total t hm, ?_, ?_⟩
  · intro e c hu
    rw [sign_one_eq_of_mask hm, if_neg (by simp [hu])]
    exact rfl
  · intro e txt d hu hp hr
    rw [sign_one_eq_of_mask hm, if_neg (by simp [hu]),
        sign_one_try_checkin_exn hp hr]

/-- Witness for C3 (amended) at a concrete login timeout. -/
theorem sign_in_exception_conversion_witness :
    sign_one (S "https://x") (S "ab@x.com") (S "p") ⟨.exn (S "Timeout"), .resp []⟩ =
      .ok ⟨S "a*@x.com", false, false, false, false, .pystr (S "Timeout")⟩ :=
  (sign_in_exception_conversion (S "https://x") (S "ab@x.com") (S "p") (S "a*@x.com")
    ⟨.exn (S "Timeout"), .resp []⟩ rfl).2.1 (S "Timeout") (.resp []) rfl

/-- Per-account characterization of the batch loop: with maskable
identifiers and printable per-account log lines, it yields one outcome per
account, in input order, each depending only on that account and its own
transport behaviour. -/
lemma run_batch_spec (url : Str) (env : Nat → Transport) :
    ∀ (accounts : List (Str × Str)) (i : Nat),
      (∀ a ∈ accounts, ∃ m, mask_email a.1 = .ok m) →
      (∀ j a, accounts.get? j = some a →
        outcome_printable (sign_one url a.1 a.2 (env (i + j))) = true) →
      ∃ rs, run_batch url env i accounts = .ok rs ∧ rs.length = accounts.length ∧
        ∀ j a, accounts.get? j = some a →
          rs.get? j = (sign_one url a.1 a.2 (env (i + j))).toOption := by
  intro accounts
  induction accounts with
  | nil =>
    intro i _ _
    exact ⟨[], rfl, rfl, by intro j a hj; simp at hj⟩
  | cons hd tl ih =>
    obtain ⟨e1, p1⟩ := hd
    intro i hmask hprint
    obtain ⟨m, hm⟩ := hmask (e1, p1) (by simp)
    obtain ⟨r, hr⟩ := @sign_one_total url e1 p1 m (env i) hm
    have hpr0 : outcome_printable (sign_one url e1 p1 (env i)) = true := by
      have h0 := hprint 0 (e1, p1) rfl
      simpa using h0
    rw [hr] at hpr0
    obtain ⟨v, hv⟩ : ∃ v, log_reason_slice r.reason = .ok v := by
      rcases hls : log_reason_slice r.reason with e | v
      · simp only [outcome_printable, hls] at hpr0
        exact Bool.noConfusion hpr0
      · exact ⟨v, rfl⟩
    obtain ⟨rs, hrs, hlen, hidx⟩ := ih (i + 1) (fun a ha => hmask a (by simp [ha]))
      (fun j a hj => by
        rw [show (i + 1) + j = i + (j + 1) from by omega]
        exact hprint (j + 1) a (by simpa using hj))
    refine ⟨r :: rs, ?_, by simp [hlen], ?_⟩
    · unfold run_batch
      simp only [hr, hv, hrs]
    · intro j a hj
      cases j with
      | zero =>
        simp only [List.get?_cons_zero, Option.some_inj] at hj
        subst hj
        simp [hr, Except.toOption]
      | succ j =>
        simp only [List.get?_cons_succ] at hj ⊢
        rw [show i + (j + 1) = (i + 1) + j by omega]
        exact hidx j a hj

/-- C9 counterexample: the batch loop does not yield one outcome per account
for every parsed list.  First input: the second identifier has an empty local
part, so masking raises `IndexError` and the third account is never
attempted.  Second input: every identifier masks, but the first login
response carries the JSON `msg` value `5`, so the stored reason is a truthy
non-sliceable value and the per-account log line (main.py:314-317) raises
`TypeError` before the second account is attempted. -/
theorem batch_aborts_counterexample :
    run_batch (S "https://x")
      (fun _ => ⟨.resp (S "\x7b\"ret\":1\x7d"), .resp (S "\x7b\"ret\":1\x7d")⟩) 0
      [(S "ab@x.com", S "p"), (S "@x.com", S "p"), (S "cd@x.com", S "p")] =
      .error (S "IndexError: string index out of range") ∧
    run_batch (S "https://x")
      (fun _ => ⟨.resp (S "\x7b\"ret\":0,\"msg\":5\x7d"), .resp (S "\x7b\"ret\":1\x7d")⟩) 0
      [(S "ab@x.com", S "p"), (S "cd@x.com", S "q")] =
      .error (S "TypeError: object is not subscriptable") :=
  ⟨rfl, rfl⟩

/-- C9 (amended): for every parsed account list in which every identifier
masks without error and every per-account log line prints without raising
(the outcome reason is falsy or sliceable), the batch run produces exactly
one outcome per input account, in input order, and each outcome is that of
running the executor on that account alone with its own transport behaviour —
so a failure in one account never prevents subsequent accounts from being
attempted. -/
theorem batch_one_outcome_per_account (url : Str) (env : Nat → Transport)
    (accounts : List (Str × Str))
    (hmask : ∀ a ∈ accounts, ∃ m, mask_email a.1 = .ok m)
    (hprint : ∀ j a, accounts.get? j = some a →
      outcome_printable (sign_one url a.1 a.2 (env j)) = true) :
    ∃ rs, run_batch url env 0 accounts = .ok rs ∧ rs.length = accounts.length ∧
      ∀ j a, accounts.get? j = some a →
        rs.get? j = (sign_one url a.1 a.2 (env j)).toOption := by
  obtain ⟨rs, h1, h2, h3⟩ := run_batch_spec url env accounts 0 hmask
    (fun j a hj => by simpa using hprint j a hj)
  exact ⟨rs, h1, h2, fun j a hj => by simpa using h3 j a hj⟩

/-- Witness for C9 (amended) on a concrete two-account list. -/
theorem batch_one_outcome_per_account_witness :
    ∃ rs, run_batch (S "https://x")
        (fun _ => ⟨.resp (S "\x7b\"ret\":1\x7d"), .resp (S "\x7b\"ret\":1\x7d")⟩) 0
        [(S "ab@x.com", S "p"), (S "cd@x.com", S "q")] = .ok rs ∧
      rs.length = 2 ∧
      ∀ j a, ([(S "ab@x.com", S "p"), (S "cd@x.com", S "q")] :
          List (Str × Str)).get? j = some a →
        rs.get? j = (sign_one (S "https://x") a.1 a.2
          ⟨.resp (S "\x7b\"ret\":1\x7d"), .resp (S "\x7b\"ret\":1\x7d")⟩).toOption :=
  batch_one_outcome_per_account (S "https://x")
    (fun _ => ⟨.resp (S "\x7b\"ret\":1\x7d"), .resp (S "\x7b\"ret\":1\x7d")⟩)
    [(S "ab@x.com", S "p"), (S "cd@x.com", S "q")]
    (by
      intro a ha
      simp only [List.mem_cons, List.mem_singleton, List.not_mem_nil, or_false] at ha
      rcases ha with rfl | rfl
      · exact ⟨S "a*@x.com", rfl⟩
      · exact ⟨S "c*@x.com", rfl⟩)
    (by
      intro j a hj
      rcases j with _ | _ | j
      · simp only [List.get?_cons_zero, Option.some_inj] at hj
        subst hj
        rfl
      · simp only [List.get?_cons_succ, List.get?_cons_zero, Option.some_inj] at hj
        subst hj
        rfl
      · simp at hj)

/-- C10: the success-sentinel test is Python membership `ret in (1, "1",
True)` under value equality — any status whose numeric value equals 1 (for
example the float produced by the JSON body with `"ret": 1.0`) is accepted as
success, end to end through `sign_one`, at both protocol steps. -/
theorem success_sentinel_value_equality :
    (∀ v : PyVal, numValue v = some 1 → inSuccessTuple v = true) ∧
    parse_json_maybe (S "\x7b\"ret\": 1.0\x7d") = some (.pydict [(S "ret", .pyfloat 1)]) ∧
    sign_one (S "https://x") (S "ab@x.com") (S "p")
      ⟨.resp (S "\x7b\"ret\":1.0\x7d"), .resp (S "\x7b\"ret\":1.0,\"msg\":\"ok\"\x7d")⟩ =
      .ok ⟨S "a*@x.com", true, true, true, false, .pystr (S "ok")⟩ := by
  refine ⟨?_, rfl, rfl⟩
  intro v hv
  have h1 : pyEqScalar v (.pyint 1) = true := by
    unfold pyEqScalar
    rw [hv]
    exact rfl
  unfold inSuccessTuple
  rw [h1]
  rfl

/-- Witness for C10: the float 1.0 passes the success test. -/
theorem success_sentinel_value_equality_witness :
    inSuccessTuple (.pyfloat 1) = true :=
  success_sentinel_value_equality.1 (.pyfloat 1) rfl

/-! ### Claim theorems: response classification (C1, C5, C6) -/

/-- Statement helper: does a parse result hold an object whose status flag
passes the success-sentinel test? -/
def loginRetOk : Option PyVal → Bool
  | some (.pydict d) => inSuccessTuple (pyGet d retKey)
  | _ => false

/-- Statement helper: the `msg` field of a parse result (`None` when the body
is not an object or lacks the field), as `j.get("msg") if isinstance(j, dict)
else None` computes it. -/
def msgField : Option PyVal → PyVal
  | some (.pydict d) => pyGet d msgKey
  | _ => .pynone

/-- Statement helper: did the body parse as an object? -/
def isDictResult : Option PyVal → Bool
  | some (.pydict _) => true
  | _ => false

/-- Python `or` keeps a non-empty string on the left. -/
lemma pyOr_pystr_of_ne {msg : Str} (h : ¬msg = []) (w : PyVal) :
    pyOr (.pystr msg) w = .pystr msg := by
  unfold pyOr pyTruthy
  simp [h]

/-- Reduction of the `try` body when the login response is not an object whose
status flag passes the success test: the check-in transport is never
consulted. -/
lemma sign_one_try_login_fail {txt masked : Str} {c : ReqResult}
    (hfail : loginRetOk (parse_json_maybe (strip txt)) = false) :
    sign_one_try ⟨.resp txt, c⟩ masked =
      .ok ⟨masked, false, false, false, false,
           pyOr (msgField (parse_json_maybe (strip txt)))
                (.pystr ((strip txt).take 300))⟩ := by
  show login_classify (parse_json_maybe (strip txt)) txt c masked = _
  rcases hp : parse_json_maybe (strip txt) with _ | v
  · rfl
  · cases v with
    | pydict d =>
      rw [hp] at hfail
      simp only [loginRetOk] at hfail
      simp only [login_classify]
      rw [if_neg (by simp [hfail])]
      rfl
    | pynone => rfl
    | pybool b => rfl
    | pyint n => rfl
    | pyfloat q => rfl
    | pystr s => rfl
    | pylist l => rfl

/-- C1 counterexample: a check-in response whose status flag is the success
sentinel and whose message contains both an action keyword and a redundancy
keyword yields `was_redundant = false` — so the classification is not applied
regardless of the reported status flag. -/
theorem redundancy_ignored_on_success_status :
    is_already_checked_in (S "已经签到") = true ∧
    sign_one (S "https://x") (S "ab@x.com") (S "p")
      ⟨.resp (S "\x7b\"ret\":1\x7d"), .resp (S "\x7b\"ret\":1,\"msg\":\"已经签到\"\x7d")⟩ =
      .ok ⟨S "a*@x.com", true, true, true, false, .pystr (S "已经签到")⟩ :=
  ⟨by decide, rfl⟩

/-- C1 (amended): for every parsed check-in response whose status flag is not
the success sentinel and whose message contains both an action keyword and a
redundancy keyword, the outcome has `checkin_ok = true` and
`already_checked = true`. -/
theorem redundant_checkin_classified (url email pwd masked txt1 txt2 msg : Str)
    (d1 d2 : List (Str × PyVal))
    (hm : mask_email email = .ok masked) (hu : url.isEmpty = false)
    (h1 : parse_json_maybe (strip txt1) = some (.pydict d1))
    (hr1 : inSuccessTuple (pyGet d1 retKey) = true)
    (h2 : parse_json_maybe (strip txt2) = some (.pydict d2))
    (hr2 : inSuccessTuple (pyGet d2 retKey) = false)
    (hmsg : pyGet d2 msgKey = .pystr msg)
    (ha : is_already_checked_in msg = true) :
    sign_one url email pwd ⟨.resp txt1, .resp txt2⟩ =
      .ok ⟨masked, true, true, true, true, .pystr (strip msg)⟩ := by
  have hne : ¬msg = [] := by
    intro h
    subst h
    exact absurd ha (by decide)
  have htry : sign_one_try ⟨.resp txt1, .resp txt2⟩ masked =
      .ok ⟨masked, true, true, true, true, .pystr (strip msg)⟩ := by
    show login_classify (parse_json_maybe (strip txt1)) txt1 (.resp txt2) masked = _
    rw [h1]
    simp only [login_classify]
    rw [hr1, if_pos rfl]
    show checkin_classify (parse_json_maybe (strip txt2)) txt2 masked = _
    rw [h2]
    simp only [checkin_classify]
    rw [hr2, if_neg (by simp), hmsg, pyOr_pystr_of_ne hne]
    show (if is_already_checked_in (strip msg) then _ else _) = _
    rw [is_already_checked_in_strip, ha, if_pos rfl]
  rw [sign_one_eq_of_mask hm, if_neg (by simp [hu]), htry]

/-- Witness for C1 (amended) at a concrete redundant check-in response. -/
theorem redundant_checkin_classified_witness :
    sign_one (S "https://x") (S "ab@x.com") (S "p")
      ⟨.resp (S "\x7b\"ret\":1\x7d"),
       .resp (S "\x7b\"ret\":0,\"msg\":\"您似乎已经签到过了\"\x7d")⟩ =
      .ok ⟨S "a*@x.com", true, true, true, true,
           .pystr (strip (S "您似乎已经签到过了"))⟩ :=
  redundant_checkin_classified (S "https://x") (S "ab@x.com") (S "p") (S "a*@x.com")
    (S "\x7b\"ret\":1\x7d") (S "\x7b\"ret\":0,\"msg\":\"您似乎已经签到过了\"\x7d")
    (S "您似乎已经签到过了")
    [(S "ret", .pyint 1)] [(S "ret", .pyint 0), (S "msg", .pystr (S "您似乎已经签到过了"))]
    rfl rfl rfl rfl rfl rfl rfl (by decide)

/-- C5 counterexample: a login response with a present but empty `msg` field
gets the truncated stripped body as detail, not the (empty) message field. -/
theorem login_detail_falls_back_on_empty_msg :
    sign_one (S "https://x") (S "ab@x.com") (S "p")
      ⟨.resp (S "\x7b\"ret\":0,\"msg\":\"\"\x7d"), .resp (S "ignored")⟩ =
      .ok ⟨S "a*@x.com", false, false, false, false,
           .pystr (S "\x7b\"ret\":0,\"msg\":\"\"\x7d")⟩ ∧
    ¬S "\x7b\"ret\":0,\"msg\":\"\"\x7d" = S "" :=
  ⟨rfl, by decide⟩

/-- C5 (amended): for every login response that does not parse as an object
with a success status flag, the outcome has `login_ok = false` and
`checkin_executed = false`, its detail is the message field if that is present
and truthy (non-empty) and otherwise the 300-character prefix of the stripped
raw body, and the check-in transport is never consulted. -/
theorem login_failure_no_checkin (url email pwd masked txt : Str) (c : ReqResult)
    (hm : mask_email email = .ok masked) (hu : url.isEmpty = false)
    (hfail : loginRetOk (parse_json_maybe (strip txt)) = false) :
    sign_one url email pwd ⟨.resp txt, c⟩ =
      .ok ⟨masked, false, false, false, false,
        if pyTruthy (msgField (parse_json_maybe (strip txt))) = true
        then msgField (parse_json_maybe (strip txt))
        else .pystr ((strip txt).take 300)⟩ ∧
    ∀ c', sign_one url email pwd ⟨.resp txt, c'⟩ = sign_one url email pwd ⟨.resp txt, c⟩ := by
  constructor
  · rw [sign_one_eq_of_mask hm, if_neg (by simp [hu]), sign_one_try_login_fail hfail]
    rfl
  · intro c'
    rw [sign_one_eq_of_mask hm, if_neg (by simp [hu]), sign_one_try_login_fail hfail,
        sign_one_eq_of_mask hm, if_neg (by simp [hu]),
        @sign_one_try_login_fail txt masked c hfail]

/-- Witness for C5 (amended) at a concrete rejected login. -/
theorem login_failure_no_checkin_witness :
    sign_one (S "https://x") (S "ab@x.com") (S "p")
      ⟨.resp (S "\x7b\"ret\":0,\"msg\":\"bad\"\x7d"), .resp (S "ignored")⟩ =
      .ok ⟨S "a*@x.com", false, false, false, false,
        if pyTruthy (msgField (parse_json_maybe
              (strip (S "\x7b\"ret\":0,\"msg\":\"bad\"\x7d")))) = true
        then msgField (parse_json_maybe (strip (S "\x7b\"ret\":0,\"msg\":\"bad\"\x7d")))
        else .pystr ((strip (S "\x7b\"ret\":0,\"msg\":\"bad\"\x7d")).take 300)⟩ :=
  (login_failure_no_checkin (S "https://x") (S "ab@x.com") (S "p") (S "a*@x.com")
    (S "\x7b\"ret\":0,\"msg\":\"bad\"\x7d") (.resp (S "ignored")) rfl rfl rfl).1

/-- C6: after a successful login, a check-in body that does not parse as an
object yields a plain failure (`login_ok = true`, `checkin_executed = true`,
`checkin_ok = false`, `already_checked = false`) whose detail is the truncated
prefix of the stripped raw text; the redundancy classifier is never applied. -/
theorem checkin_unparseable_is_failure (url email pwd masked txt1 txt2 : Str)
    (d1 : List (Str × PyVal))
    (hm : mask_email email = .ok masked) (hu : url.isEmpty = false)
    (h1 : parse_json_maybe (strip txt1) = some (.pydict d1))
    (hr1 : inSuccessTuple (pyGet d1 retKey) = true)
    (h2 : isDictResult (parse_json_maybe (strip txt2)) = false) :
    sign_one url email pwd ⟨.resp txt1, .resp txt2⟩ =
      .ok ⟨masked, true, false, true, false, .pystr ((strip txt2).take 300)⟩ := by
  have htry : sign_one_try ⟨.resp txt1, .resp txt2⟩ masked =
      .ok ⟨masked, true, false, true, false, .pystr ((strip txt2).take 300)⟩ := by
    show login_classify (parse_json_maybe (strip txt1)) txt1 (.resp txt2) masked = _
    rw [h1]
    simp only [login_classify]
    rw [hr1, if_pos rfl]
    show checkin_classify (parse_json_maybe (strip txt2)) txt2 masked = _
    rcases hp : parse_json_maybe (strip txt2) with _ | v
    · rfl
    · cases v with
      | pydict d =>
        rw [hp] at h2
        exact absurd h2 (by simp [isDictResult])
      | pynone => rfl
      | pybool b => rfl
      | pyint n => rfl
      | pyfloat q => rfl
      | pystr s => rfl
      | pylist l => rfl
  rw [sign_one_eq_of_mask hm, if_neg (by simp [hu]), htry]

/-- Witness for C6 at a concrete HTML error page. -/
theorem checkin_unparseable_is_failure_witness :
    sign_one (S "https://x") (S "ab@x.com") (S "p")
      ⟨.resp (S "\x7b\"ret\":1\x7d"), .resp (S "<html>oops</html>")⟩ =
      .ok ⟨S "a*@x.com", true, false, true, false,
           .pystr ((strip (S "<html>oops</html>")).take 300)⟩ :=
  checkin_unparseable_is_failure (S "https://x") (S "ab@x.com") (S "p") (S "a*@x.com")
    (S "\x7b\"ret\":1\x7d") (S "<html>oops</html>") [(S "ret", .pyint 1)]
    rfl rfl rfl rfl rfl

/-! ### Claim theorems: notification retry (C8) -/

/-- One unfolding step of the retry loop. -/
lemma tgRetryLoop_succ (oracle : Nat → Attempt) (rem made sleeps : Nat) (last : Option Str) :
    tgRetryLoop oracle (rem + 1) made sleeps last =
      if attemptOk (oracle made) then (made + 1, sleeps, true, last)
      else tgRetryLoop oracle rem (made + 1) (sleeps + 1) (some (attemptErr (oracle made))) :=
  rfl

/-- The retry loop makes at most `remaining` further attempts. -/
lemma tgRetryLoop_attempts_le (oracle : Nat → Attempt) :
    ∀ rem made sleeps last,
      (tgRetryLoop oracle rem made sleeps last).1 ≤ made + rem := by
  intro rem
  induction rem with
  | zero => intro made sleeps last; simp [tgRetryLoop]
  | succ n ih =>
    intro made sleeps last
    rw [tgRetryLoop_succ]
    by_cases ha : attemptOk (oracle made) = true
    · rw [if_pos ha]
      show made + 1 ≤ made + (n + 1)
      omega
    · rw [if_neg ha]
      calc (tgRetryLoop oracle n (made + 1) (sleeps + 1)
              (some (attemptErr (oracle made)))).1 ≤ (made + 1) + n := ih _ _ _
        _ = made + (n + 1) := by omega

/-- Reduction of `tg_send_html` under a configured channel. -/
lemma tg_send_html_configured {env : TgEnv} (oracle : Nat → Attempt)
    (h : (env.token.isEmpty || env.chatId.isEmpty) = false) :
    tg_send_html env oracle =
      match tgRetryLoop oracle 3 0 0 none with
      | (att, slp, true, _) => ⟨att, slp, true, none⟩
      | (att, slp, false, last) => ⟨att, slp, false, if env.debug then last else none⟩ := by
  unfold tg_send_html
  rw [if_neg (by simp [h])]

/-- C8: notification delivery is a silent no-op when unconfigured; otherwise
each chunk is attempted at most 3 times with one sleep unit after every failed
attempt, an HTTP 200 stops the retrying with nothing logged, exhausting the
retries only logs the last error (in debug mode) — delivery never raises — and
chunked delivery still performs one send per planned chunk, in order,
whatever each send's attempts do. -/
theorem notification_retry_bounds (env : TgEnv) (oracle : Nat → Attempt) :
    ((env.token.isEmpty || env.chatId.isEmpty) = true →
      tg_send_html env oracle = ⟨0, 0, false, none⟩) ∧
    (tg_send_html env oracle).attempts ≤ 3 ∧
    ((env.token.isEmpty || env.chatId.isEmpty) = false →
      (∀ k, k < 3 → attemptOk (oracle k) = true →
        (∀ j, j < k → attemptOk (oracle j) = false) →
        tg_send_html env oracle = ⟨k + 1, k, true, none⟩) ∧
      ((∀ j, j < 3 → attemptOk (oracle j) = false) →
        tg_send_html env oracle =
          ⟨3, 3, false, if env.debug then some (attemptErr (oracle 2)) else none⟩)) ∧
    (∀ full oracles,
      (tg_send_html_chunked env oracles full).length = (chunk_plan full).length ∧
      ∀ i, i < (chunk_plan full).length →
        (tg_send_html_chunked env oracles full).get? i =
          some (tg_send_html env (oracles i))) := by
  refine ⟨?_, ?_, ?_, ?_⟩
  · intro h
    unfold tg_send_html
    rw [if_pos h]
  · by_cases h : (env.token.isEmpty || env.chatId.isEmpty) = true
    · unfold tg_send_html
      rw [if_pos h]
      exact Nat.zero_le 3
    · rw [tg_send_html_configured oracle (by simpa using h)]
      have hle := tgRetryLoop_attempts_le oracle 3 0 0 none
      rcases hL : tgRetryLoop oracle 3 0 0 none with ⟨att, slp, del, last⟩
      rw [hL] at hle
      cases del <;> simpa using hle
  · intro h
    constructor
    · intro k hk hok hprev
      rw [tg_send_html_configured oracle h]
      have hL : ∃ last, tgRetryLoop oracle 3 0 0 none = (k + 1, k, true, last) := by
        match k, hk with
        | 0, _ =>
          refine ⟨none, ?_⟩
          rw [show tgRetryLoop oracle 3 0 0 none =
                if attemptOk (oracle 0) then (1, 0, true, none)
                else tgRetryLoop oracle 2 1 1 (some (attemptErr (oracle 0))) from rfl,
              if_pos hok]
        | 1, _ =>
          have h0 : attemptOk (oracle 0) = false := hprev 0 (by omega)
          refine ⟨some (attemptErr (oracle 0)), ?_⟩
          rw [show tgRetryLoop oracle 3 0 0 none =
                if attemptOk (oracle 0) then (1, 0, true, none)
                else tgRetryLoop oracle 2 1 1 (some (attemptErr (oracle 0))) from rfl,
              if_neg (by simp [h0]),
              show tgRetryLoop oracle 2 1 1 (some (attemptErr (oracle 0))) =
                if attemptOk (oracle 1) then (2, 1, true, some (attemptErr (oracle 0)))
                else tgRetryLoop oracle 1 2 2 (some (attemptErr (oracle 1))) from rfl,
              if_pos hok]
        | 2, _ =>
          have h0 : attemptOk (oracle 0) = false := hprev 0 (by omega)
          have h1 : attemptOk (oracle 1) = false := hprev 1 (by omega)
          refine ⟨some (attemptErr (oracle 1)), ?_⟩
          rw [show tgRetryLoop oracle 3 0 0 none =
                if attemptOk (oracle 0) then (1, 0, true, none)
                else tgRetryLoop oracle 2 1 1 (some (attemptErr (oracle 0))) from rfl,
              if_neg (by simp [h0]),
              show tgRetryLoop oracle 2 1 1 (some (attemptErr (oracle 0))) =
                if attemptOk (oracle 1) then (2, 1, true, some (attemptErr (oracle 0)))
                else tgRetryLoop oracle 1 2 2 (some (attemptErr (oracle 1))) from rfl,
              if_neg (by simp [h1]),
              show tgRetryLoop oracle 1 2 2 (some (attemptErr (oracle 1))) =
                if attemptOk (oracle 2) then (3, 2, true, some (attemptErr (oracle 1)))
                else tgRetryLoop oracle 0 3 3 (some (attemptErr (oracle 2))) from rfl,
              if_pos hok]
      obtain ⟨last, hL⟩ := hL
      rw [hL]
    · intro hall
      rw [tg_send_html_configured oracle h]
      have h0 : attemptOk (oracle 0) = false := hall 0 (by omega)
      have h1 : attemptOk (oracle 1) = false := hall 1 (by omega)
      have h2 : attemptOk (oracle 2) = false := hall 2 (by omega)
      have hL : tgRetryLoop oracle 3 0 0 none = (3, 3, false, some (attemptErr (oracle 2))) := by
        rw [show tgRetryLoop oracle 3 0 0 none =
              if attemptOk (oracle 0) then (1, 0, true, none)
              else tgRetryLoop oracle 2 1 1 (some (attemptErr (oracle 0))) from rfl,
            if_neg (by simp [h0]),
            show tgRetryLoop oracle 2 1 1 (some (attemptErr (oracle 0))) =
              if attemptOk (oracle 1) then (2, 1, true, some (attemptErr (oracle 0)))
              else tgRetryLoop oracle 1 2 2 (some (attemptErr (oracle 1))) from rfl,
            if_neg (by simp [h1]),
            show tgRetryLoop oracle 1 2 2 (some (attemptErr (oracle 1))) =
              if attemptOk (oracle 2) then (3, 2, true, some (attemptErr (oracle 1)))
              else tgRetryLoop oracle 0 3 3 (some (attemptErr (oracle 2))) from rfl,
            if_neg (by simp [h2])]
        rfl
      rw [hL]
  · intro full oracles
    constructor
    · simp [tg_send_html_chunked]
    · intro i hi
      show ((List.range (chunk_plan full).length).map
          (fun i => tg_send_html env (oracles i))).get? i = _
      rw [List.get?_map, List.get?_range hi]
      rfl

/-- Witness for C8: a configured channel whose post always raises exhausts the
3 attempts, sleeps after each, and logs the last error in debug mode. -/
theorem notification_retry_bounds_witness :
    tg_send_html ⟨S "t", S "c", true⟩ (fun _ => .raised (S "boom")) =
      ⟨3, 3, false, some (S "boom")⟩ :=
  ((notification_retry_bounds ⟨S "t", S "c", true⟩
      (fun _ => .raised (S "boom"))).2.2.1 rfl).2 (fun _ _ => rfl)

/-! ### Claim theorems: notification chunking (C7) -/

/-- Remove newline characters — the whitespace the chunker splits on. -/
def filterNl (s : Str) : Str := s.filter (fun c => !(c == '\n'))

/-- Join a block list with the double-newline separator (left inverse view of
`splitNN`). -/
def joinNN : List Str → Str
  | [] => []
  | [x] => x
  | x :: y :: xs => x ++ '\n' :: '\n' :: joinNN (y :: xs)

/-- Unfolding of `joinNN` on a cons with a non-empty tail. -/
lemma joinNN_cons_of_ne (x : Str) {l : List Str} (h : ¬l = []) :
    joinNN (x :: l) = x ++ '\n' :: '\n' :: joinNN l := by
  cases l with
  | nil => exact absurd rfl h
  | cons y ys => rfl

/-- Newline filtering of the empty string. -/
lemma filterNl_nil : filterNl [] = [] := rfl

/-- Newline filtering distributes over append. -/
lemma filterNl_append (a b : Str) : filterNl (a ++ b) = filterNl a ++ filterNl b :=
  List.filter_append a b

/-- The separator contributes nothing after newline filtering. -/
lemma filterNl_nlnl_cons (p : Str) : filterNl ('\n' :: '\n' :: p) = filterNl p := rfl

/-- Newline-filtered content of a candidate string. -/
lemma filterNl_candidate (buf p : Str) :
    filterNl (chunkCandidate buf p) = filterNl buf ++ filterNl p := by
  cases buf with
  | nil => rfl
  | cons c t =>
    show filterNl ((c :: t) ++ '\n' :: '\n' :: p) = _
    rw [filterNl_append, filterNl_nlnl_cons]

/-- The split list is never empty. -/
lemma splitNN_ne_nil (s acc : Str) : ¬splitNN s acc = [] := by
  induction s, acc using splitNN.induct with
  | case1 acc => simp [splitNN]
  | case2 rest acc ih => simp [splitNN]
  | case3 c rest acc hne ih =>
    rw [splitNN.eq_3 _ _ _ hne]
    exact ih

/-- Joining the split with the separator restores the input. -/
lemma splitNN_joinNN (s acc : Str) : joinNN (splitNN s acc) = acc ++ s := by
  induction s, acc using splitNN.induct with
  | case1 acc => simp [splitNN, joinNN]
  | case2 rest acc ih =>
    rw [splitNN.eq_2, joinNN_cons_of_ne _ (splitNN_ne_nil rest []), ih]
    rfl
  | case3 c rest acc hne ih =>
    rw [splitNN.eq_3 _ _ _ hne, ih]
    simp

/-- Every member of a block list occurs contiguously in the separator join. -/
lemma mem_joinNN_infix : ∀ (l : List Str) (p : Str), p ∈ l → p <:+: joinNN l := by
  intro l
  induction l with
  | nil => intro p hp; cases hp
  | cons x xs ih =>
    intro p hp
    rcases List.mem_cons.mp hp with rfl | hmem
    · cases xs with
      | nil => exact List.infix_refl _
      | cons y ys =>
        rw [joinNN_cons_of_ne _ (by simp)]
        exact ( List.prefix_append _ _).isInfix
    · cases xs with
      | nil => cases hmem
      | cons y ys =>
        rw [joinNN_cons_of_ne _ (by simp)]
        refine ( ih p hmem).trans ?_
        have hsuf : joinNN (y :: ys) <:+ x ++ '\n' :: '\n' :: joinNN (y :: ys) :=
          ⟨x ++ ['\n', '\n'], by simp⟩
        exact hsuf.isInfix

/-- Newline filtering turns a separator join into a plain flatten. -/
lemma filterNl_joinNN : ∀ l : List Str, filterNl (joinNN l) = (l.map filterNl).flatten := by
  intro l
  induction l with
  | nil => rfl
  | cons x xs ih =>
    cases xs with
    | nil => simp [joinNN, filterNl]
    | cons y ys =>
      rw [joinNN_cons_of_ne _ (by simp), filterNl_append, filterNl_nlnl_cons, ih]
      simp

/-- Hard-split pieces reassemble to the original block. -/
lemma hardSplit_join (k : Nat) (hk : 0 < k) :
    ∀ fuel cs, cs.length ≤ fuel → (hardSplit fuel k cs).flatten = cs := by
  intro fuel
  induction fuel with
  | zero =>
    intro cs h
    rw [List.eq_nil_of_length_eq_zero (Nat.le_zero.mp h)]
    rfl
  | succ n ih =>
    intro cs h
    cases cs with
    | nil => rfl
    | cons c t =>
      show ((c :: t).take k :: hardSplit n k ((c :: t).drop k)).flatten = c :: t
      rw [List.flatten_cons, ih ((c :: t).drop k) (by rw [List.length_drop]; omega)]
      exact List.take_append_drop k (c :: t)

/-- Every hard-split piece respects the size bound. -/
lemma hardSplit_mem_len (k : Nat) :
    ∀ fuel cs c, c ∈ hardSplit fuel k cs → c.length ≤ k := by
  intro fuel
  induction fuel with
  | zero => intro cs c h; cases h
  | succ n ih =>
    intro cs c h
    cases cs with
    | nil => cases h
    | cons a t =>
      rcases List.mem_cons.mp h with rfl | h2
      · exact List.length_take_le k (a :: t)
      · exact ih _ c h2

/-- Unfolding of the chunk loop on the empty part list. -/
lemma chunkLoop_nil (maxLen : Nat) (buf : Str) :
    chunkLoop maxLen [] buf = if buf.isEmpty then [] else [buf] := rfl

/-- Unfolding of the chunk loop on a cons. -/
lemma chunkLoop_cons (maxLen : Nat) (p : Str) (rest : List Str) (buf : Str) :
    chunkLoop maxLen (p :: rest) buf =
      if (chunkCandidate buf p).length ≤ maxLen then
        chunkLoop maxLen rest (chunkCandidate buf p)
      else
        (if buf.isEmpty then [] else [buf]) ++
        (if maxLen < p.length then hardSplit p.length maxLen p ++ chunkLoop maxLen rest []
         else chunkLoop maxLen rest p) := rfl

/-- Every chunk the loop emits respects the size bound. -/
lemma chunkLoop_sizes (maxLen : Nat) :
    ∀ (parts : List Str) (buf : Str), buf.length ≤ maxLen →
      ∀ c ∈ chunkLoop maxLen parts buf, c.length ≤ maxLen := by
  intro parts
  induction parts with
  | nil =>
    intro buf hb c hc
    rw [chunkLoop_nil] at hc
    split at hc
    · cases hc
    · obtain rfl := List.mem_singleton.mp hc
      exact hb
  | cons p rest ih =>
    intro buf hb c hc
    rw [chunkLoop_cons] at hc
    by_cases hcand : (chunkCandidate buf p).length ≤ maxLen
    · rw [if_pos hcand] at hc
      exact ih _ hcand c hc
    · rw [if_neg hcand] at hc
      rcases List.mem_append.mp hc with h1 | h2
      · split at h1
        · cases h1
        · obtain rfl := List.mem_singleton.mp h1
          exact hb
      · by_cases hp : maxLen < p.length
        · rw [if_pos hp] at h2
          rcases List.mem_append.mp h2 with h3 | h4
          · exact hardSplit_mem_len maxLen p.length p c h3
          · exact ih [] (Nat.zero_le _) c h4
        · rw [if_neg hp] at h2
          exact ih p (by omega) c h2

/-- Newline-filtered content of the loop output: the buffer plus all parts. -/
lemma chunkLoop_content (maxLen : Nat) (hk : 0 < maxLen) :
    ∀ (parts : List Str) (buf : Str),
      filterNl (chunkLoop maxLen parts buf).flatten =
        filterNl buf ++ (parts.map filterNl).flatten := by
  intro parts
  induction parts with
  | nil =>
    intro buf
    rw [chunkLoop_nil]
    by_cases hb : buf.isEmpty = true
    · rw [if_pos hb, List.isEmpty_iff.mp hb]
      rfl
    · rw [if_neg hb]
      simp
  | cons p rest ih =>
    intro buf
    rw [chunkLoop_cons]
    by_cases hcand : (chunkCandidate buf p).length ≤ maxLen
    · rw [if_pos hcand, ih, filterNl_candidate]
      simp
    · rw [if_neg hcand, List.flatten_append, filterNl_append]
      have hbufpart : filterNl (if buf.isEmpty then ([] : List Str) else [buf]).flatten
          = filterNl buf := by
        by_cases hb : buf.isEmpty = true
        · rw [if_pos hb, List.isEmpty_iff.mp hb]
          rfl
        · rw [if_neg hb]
          simp
      rw [hbufpart]
      by_cases hp : maxLen < p.length
      · rw [if_pos hp, List.flatten_append, filterNl_append, ih,
            hardSplit_join maxLen hk p.length p (Nat.le_refl _)]
        simp [filterNl_nil]
      · rw [if_neg hp, ih]
        simp [filterNl_nil]

/-- A non-empty buffer ends up inside some emitted chunk. -/
lemma chunkLoop_buf_infix (maxLen : Nat) :
    ∀ (parts : List Str) (buf : Str), ¬buf = [] →
      ∃ c ∈ chunkLoop maxLen parts buf, buf <:+: c := by
  intro parts
  induction parts with
  | nil =>
    intro buf hb
    rw [chunkLoop_nil, if_neg (by simpa [List.isEmpty_iff] using hb)]
    exact ⟨buf, List.mem_singleton.mpr rfl, List.infix_refl _⟩
  | cons p rest ih =>
    intro buf hb
    rw [chunkLoop_cons]
    by_cases hcand : (chunkCandidate buf p).length ≤ maxLen
    · rw [if_pos hcand]
      have hcne : ¬chunkCandidate buf p = [] := by
        unfold chunkCandidate
        rw [if_neg (by simpa [List.isEmpty_iff] using hb)]
        simp [hb]
      obtain ⟨c, hc, hinf⟩ := ih _ hcne
      refine ⟨c, hc, ( ?_ : buf <:+: chunkCandidate buf p).trans hinf⟩
      unfold chunkCandidate
      rw [if_neg (by simpa [List.isEmpty_iff] using hb)]
      exact ( List.prefix_append _ _).isInfix
    · rw [if_neg hcand]
      refine ⟨buf, ?_, List.infix_refl _⟩
      rw [if_neg (by simpa [List.isEmpty_iff] using hb)]
      exact List.mem_append.mpr (Or.inl (List.mem_singleton.mpr rfl))

/-- A non-empty part within the size bound ends up contiguously inside some
emitted chunk: such blocks are never hard-split. -/
lemma chunkLoop_part_infix (maxLen : Nat) :
    ∀ (parts : List Str) (buf p : Str), p ∈ parts → ¬p = [] → p.length ≤ maxLen →
      ∃ c ∈ chunkLoop maxLen parts buf, p <:+: c := by
  intro parts
  induction parts with
  | nil => intro buf p hp; cases hp
  | cons q rest ih =>
    intro buf p hp hpne hplen
    rcases List.mem_cons.mp hp with rfl | hmem
    · rw [chunkLoop_cons]
      by_cases hcand : (chunkCandidate buf p).length ≤ maxLen
      · rw [if_pos hcand]
        have hcne : ¬chunkCandidate buf p = [] := by
          unfold chunkCandidate
          by_cases hb : buf.isEmpty = true
          · rw [if_pos hb]
            exact hpne
          · rw [if_neg hb]
            simp
        obtain ⟨c, hc, hinf⟩ := chunkLoop_buf_infix maxLen rest _ hcne
        refine ⟨c, hc, ( ?_ : p <:+: chunkCandidate buf p).trans hinf⟩
        unfold chunkCandidate
        by_cases hb : buf.isEmpty = true
        · rw [if_pos hb]
        · rw [if_neg hb]
          have hsuf : p <:+ buf ++ '\n' :: '\n' :: p := ⟨buf ++ ['\n', '\n'], by simp⟩
          exact hsuf.isInfix
      · rw [if_neg hcand, if_neg (show ¬maxLen < p.length by omega)]
        obtain ⟨c, hc, hinf⟩ := chunkLoop_buf_infix maxLen rest p hpne
        exact ⟨c, List.mem_append.mpr (Or.inr hc), hinf⟩
    · rw [chunkLoop_cons]
      by_cases hcand : (chunkCandidate buf q).length ≤ maxLen
      · rw [if_pos hcand]
        exact ih _ p hmem hpne hplen
      · rw [if_neg hcand]
        by_cases hq : maxLen < q.length
        · rw [if_pos hq]
          obtain ⟨c, hc, hinf⟩ := ih [] p hmem hpne hplen
          exact ⟨c, List.mem_append.mpr (Or.inr (List.mem_append.mpr (Or.inr hc))), hinf⟩
        · rw [if_neg hq]
          obtain ⟨c, hc, hinf⟩ := ih q p hmem hpne hplen
          exact ⟨c, List.mem_append.mpr (Or.inr hc), hinf⟩

/-- C7 (amended): every delivered chunk is within the size bound; the
concatenation of the delivered chunks reconstructs the input up to newline
(splitting) whitespace; a block within the bound is never hard-split (it
appears contiguously in one chunk); and whenever the newline-stripped content
exceeds the bound, two or more send calls are issued. -/
theorem notification_chunking (full : Str) :
    (maxChunkLen < (filterNl full).length → 2 ≤ (chunk_plan full).length) ∧
    (∀ c ∈ chunk_plan full, c.length ≤ maxChunkLen) ∧
    filterNl (chunk_plan full).flatten = filterNl full ∧
    (∀ p ∈ splitNN full [], ¬p = [] → p.length ≤ maxChunkLen →
      ∃ c ∈ chunk_plan full, p <:+: c) := by
  have hfull : filterNl full = ((splitNN full []).map filterNl).flatten := by
    rw [← filterNl_joinNN]
    rw [show joinNN (splitNN full []) = full by simpa using splitNN_joinNN full []]
  have hsizes : ∀ c ∈ chunk_plan full, c.length ≤ maxChunkLen := by
    intro c hc
    unfold chunk_plan at hc
    by_cases hlen : full.length ≤ maxChunkLen
    · rw [if_pos hlen] at hc
      obtain rfl := List.mem_singleton.mp hc
      exact hlen
    · rw [if_neg hlen] at hc
      exact chunkLoop_sizes maxChunkLen _ [] (Nat.zero_le _) c hc
  have hcontent : filterNl (chunk_plan full).flatten = filterNl full := by
    unfold chunk_plan
    by_cases hlen : full.length ≤ maxChunkLen
    · rw [if_pos hlen]
      simp
    · rw [if_neg hlen, chunkLoop_content maxChunkLen (by decide) _ []]
      rw [hfull]
      rfl
  refine ⟨?_, hsizes, hcontent, ?_⟩
  · intro hbig
    rcases hplan : chunk_plan full with _ | ⟨c, rest2⟩
    · rw [← hcontent, hplan] at hbig
      simp [maxChunkLen, filterNl_nil] at hbig
    · rcases rest2 with _ | ⟨c2, rest3⟩
      · rw [hplan] at hcontent
        have hc' : ([c] : List Str).flatten = c := by simp
        rw [hc'] at hcontent
        have h1 : (filterNl full).length ≤ c.length := by
          rw [← hcontent]
          exact List.length_filter_le _ c
        have h2 : c.length ≤ maxChunkLen := hsizes c (by simp [hplan])
        omega
      · simp only [List.length_cons]
        omega
  · intro p hp hpne hplen
    unfold chunk_plan
    by_cases hlen : full.length ≤ maxChunkLen
    · rw [if_pos hlen]
      refine ⟨full, List.mem_singleton.mpr rfl, ?_⟩
      have hinf := mem_joinNN_infix _ p hp
      rwa [show joinNN (splitNN full []) = full by simpa using splitNN_joinNN full []] at hinf
    · rw [if_neg hlen]
      exact chunkLoop_part_infix maxChunkLen _ [] p hp hpne hplen

/-- Length of the all-separator payload. -/
lemma flatten_replicate_nlnl_length :
    ∀ n, (List.replicate n (['\n', '\n'] : Str)).flatten.length = 2 * n := by
  intro n
  induction n with
  | zero => rfl
  | succ m ih =>
    rw [List.replicate_succ, List.flatten_cons, List.length_append, ih]
    show 2 + 2 * m = 2 * (m + 1)
    omega

/-- Splitting the all-separator payload yields only empty parts. -/
lemma splitNN_replicate_nlnl : ∀ n (acc : Str),
    splitNN (List.replicate n (['\n', '\n'] : Str)).flatten acc =
      acc :: List.replicate n [] := by
  intro n
  induction n with
  | zero => intro acc; rfl
  | succ m ih =>
    intro acc
    rw [List.replicate_succ, List.flatten_cons]
    show splitNN ('\n' :: '\n' :: (List.replicate m (['\n', '\n'] : Str)).flatten) acc = _
    rw [splitNN.eq_2, ih, List.replicate_succ]

/-- The loop drops a part list of empty parts entirely. -/
lemma chunkLoop_replicate_nil (maxLen : Nat) :
    ∀ m, chunkLoop maxLen (List.replicate m ([] : Str)) [] = [] := by
  intro m
  induction m with
  | zero => rfl
  | succ k ih =>
    rw [List.replicate_succ, chunkLoop_cons, if_pos (by simp [chunkCandidate])]
    exact ih

/-- C7 counterexample: a payload of 1901 separator pairs has 3802 characters —
beyond the maximum chunk size — yet produces an empty chunk plan, so zero send
calls are issued rather than the claimed two or more. -/
theorem chunking_zero_calls_on_separator_payload :
    maxChunkLen < (List.replicate 1901 (['\n', '\n'] : Str)).flatten.length ∧
    chunk_plan (List.replicate 1901 (['\n', '\n'] : Str)).flatten = [] := by
  constructor
  · rw [flatten_replicate_nlnl_length]
    decide
  · unfold chunk_plan
    rw [if_neg (by rw [flatten_replicate_nlnl_length]; decide)]
    rw [splitNN_replicate_nlnl]
    show chunkLoop maxChunkLen (List.replicate 1902 ([] : Str)) [] = []
    exact chunkLoop_replicate_nil maxChunkLen 1902

/-- Newline filtering keeps a newline-free payload intact. -/
lemma filterNl_replicate_a :
    ∀ n, filterNl (List.replicate n 'a') = List.replicate n 'a' := by
  intro n
  induction n with
  | zero => rfl
  | succ m ih =>
    rw [List.replicate_succ]
    show 'a' :: filterNl (List.replicate m 'a') = 'a' :: List.replicate m 'a'
    rw [ih]

/-- Witness for C7 (amended): an oversize newline-free payload is split into
at least two chunks, and a small block is delivered contiguously. -/
theorem notification_chunking_witness :
    2 ≤ (chunk_plan (List.replicate 3801 'a')).length ∧
    ∃ c ∈ chunk_plan (S "ab"), (S "ab") <:+: c :=
  ⟨(notification_chunking (List.replicate 3801 'a')).1
      (by rw [filterNl_replicate_a, List.length_replicate]; decide),
   (notification_chunking (S "ab")).2.2.2 (S "ab") (by decide) (by decide) (by decide)⟩

end VpsCheckin

